import Mathlib

/-!
# Verification of the multi-vendor e-commerce backend (`main.py`)

Shallow embedding of the FastAPI application in `src/main.py`.  Documents of
the schemaless store are association lists from field names to a JSON/BSON-like
value type; Python floats are idealised as rationals; the MongoDB ObjectId type
is modelled as its canonical 24-hex-character string form.  The `database`
module (`db`, `create_document`, `get_documents`) is not part of the provided
sources; those operations are modelled from the specification, as marked on
their doc comments.  Endpoint handlers are state-passing functions: reads
return `Except HTTPError`, writes additionally thread the `Store`.
-/

namespace ECom

/-- A JSON/BSON-like value as stored in documents.  Python `float` is
idealised as `ℚ`; a BSON ObjectId is carried as its 24-hex-char string. -/
inductive Value where
  | vNull
  | vStr (s : String)
  | vInt (n : Int)
  | vNum (q : ℚ)
  | vId (s : String)
  | vList (l : List Value)
  | vDoc (d : List (String × Value))

/-- A schemaless document: an association list of fields (Python dict). -/
abbrev Doc := List (String × Value)

/-- First value bound to key `k` in a document (Python `d[k]` / `d.get(k)`). -/
def dGet? : Doc → String → Option Value
  | [], _ => none
  | (k', v) :: t, k => if k' = k then some v else dGet? t k

/-- Python `d.get(k, dflt)`. -/
def dGetD (d : Doc) (k : String) (dflt : Value) : Value :=
  (dGet? d k).getD dflt

/-- Remove every binding of key `k` (Python `d.pop(k)`'s removal effect;
dict keys are unique, so removing all occurrences is faithful). -/
def dRemove (d : Doc) (k : String) : Doc :=
  d.filter (fun kv => kv.1 ≠ k)

/-- Python `d[k] = v`: replace the first binding of `k` in place, or append
the new binding at the end when `k` is absent. -/
def dSet : Doc → String → Value → Doc
  | [], k, v => [(k, v)]
  | (k', v') :: t, k, v =>
      if k' = k then (k, v) :: t else (k', v') :: dSet t k v

/-- Python `str()` on stored values, as used on `_id` values and in the
insufficient-stock message.  `str` of an ObjectId is its hex string; formatting
of floats and containers is approximated (no theorem inspects those cases). -/
def pyStr : Value → String
  | .vNull => "None"
  | .vStr s => s
  | .vInt n => toString n
  | .vNum q => toString q
  | .vId s => s
  | .vList _ => "list"
  | .vDoc _ => "dict"

/-- Python `int(v)` (`int(prod.get("stock", 0))`): identity on ints,
truncation toward zero on floats, decimal parse on strings, raises (`none`)
otherwise. -/
def toPyInt : Value → Option Int
  | .vInt n => some n
  | .vNum q => some (if 0 ≤ q then ⌊q⌋ else ⌈q⌉)
  | .vStr s => s.toInt?
  | _ => none

/-- Python `float(v)` (`float(prod.get("price", 0))`): identity on floats,
cast on ints, raises (`none`) otherwise (string parsing is not modelled; no
theorem exercises float-from-string). -/
def toPyFloat : Value → Option ℚ
  | .vNum q => some q
  | .vInt n => some (n : ℚ)
  | _ => none

/-- Hex digit check used by `bson.ObjectId` string validation. -/
def isHexChar (c : Char) : Bool :=
  c.isDigit || ('a' ≤ c && c ≤ 'f') || ('A' ≤ c && c ≤ 'F')

/-- `bson.ObjectId(s)` accepts exactly 24-character hex strings. -/
def isValidOid (s : String) : Bool :=
  s.length == 24 && s.toList.all isHexChar

/-- `n`-th hex digit character (lowercase). -/
def hexDigit (n : Nat) : Char :=
  if n < 10 then Char.ofNat (48 + n) else Char.ofNat (87 + (n % 16))

/-- Store-generated ObjectId for creation counter `n`: `n` written as 24
lowercase hex characters (big-endian, zero-padded). -/
def genOid (n : Nat) : String :=
  ⟨(List.range 24).map (fun i => hexDigit (n / 16 ^ (23 - i) % 16))⟩

/-- An HTTP error response (`fastapi.HTTPException`). -/
structure HTTPError where
  status : Nat
  detail : String
deriving DecidableEq, Repr

/-- The 400 error raised by `oid` on an unparsable identifier. -/
def invalidIdErr : HTTPError := ⟨400, "Invalid ID format"⟩

/-- A Python exception other than HTTPException escaping a handler is turned
into a 500 response by the framework. -/
def err500 : HTTPError := ⟨500, "Internal Server Error"⟩

/-- `oid(id_str)` from `main.py`: parse a client-supplied identifier string,
raising 400 "Invalid ID format" when `bson.ObjectId` rejects it. -/
def oid (id_str : String) : Except HTTPError String :=
  if isValidOid id_str then .ok id_str else .error invalidIdErr

/-! ## Request payload models (the pydantic classes of `main.py`) -/

/-- `VendorIn`: `name`, optional `description`, `email`. -/
structure VendorIn where
  name : String
  description : Option String := none
  email : String
deriving DecidableEq, Repr

/-- `ProductIn`: `vendor_id`, `title`, optional `description`, `price` (float),
`stock` (int, unconstrained), optional `category`, optional `images`. -/
structure ProductIn where
  vendor_id : String
  title : String
  description : Option String := none
  price : ℚ
  stock : Int
  category : Option String := none
  images : Option (List String) := none
deriving DecidableEq, Repr

/-- `OrderItemIn`: `product_id` and an unconstrained `int` quantity. -/
structure OrderItemIn where
  product_id : String
  quantity : Int
deriving DecidableEq, Repr

/-- `OrderIn`: `buyer_email` and the list of requested lines. -/
structure OrderIn where
  buyer_email : String
  items : List OrderItemIn
deriving DecidableEq, Repr

/-- Python `None`-or-string as a stored value (`model_dump` maps `None` to
JSON null). -/
def optStr : Option String → Value
  | some s => .vStr s
  | none => .vNull

/-- `payload.model_dump()` for `VendorIn` (fields in declaration order). -/
def VendorIn.model_dump (p : VendorIn) : Doc :=
  [("name", .vStr p.name), ("description", optStr p.description),
   ("email", .vStr p.email)]

/-- `payload.model_dump()` for `ProductIn` (fields in declaration order). -/
def ProductIn.model_dump (p : ProductIn) : Doc :=
  [("vendor_id", .vStr p.vendor_id), ("title", .vStr p.title),
   ("description", optStr p.description), ("price", .vNum p.price),
   ("stock", .vInt p.stock), ("category", optStr p.category),
   ("images", match p.images with
              | some l => .vList (l.map .vStr)
              | none => .vNull)]

/-! ## The document store -/

/-- The three collections this application touches, plus the counter feeding
store-side id generation. -/
structure Store where
  vendors : List Doc
  products : List Doc
  orders : List Doc
  nextOid : Nat

/-- Modelled from the spec: `create_document` lives in the repository's
`database` module, which is absent from the provided sources.  Per the spec,
"createDocument(collectionName, documentBody) -> generatedId: inserts the
document, returns its store-assigned identifier as a string.  Side effect:
persists one new document."  The inserted document carries a fresh
store-generated `_id`; the id is returned in string form. -/
def create_document (coll : String) (data : Doc) (s : Store) :
    String × Store :=
  let i := genOid s.nextOid
  let d := data ++ [("_id", Value.vId i)]
  let s' :=
    if coll = "vendor" then
      { s with vendors := s.vendors ++ [d], nextOid := s.nextOid + 1 }
    else if coll = "catalogproduct" then
      { s with products := s.products ++ [d], nextOid := s.nextOid + 1 }
    else if coll = "order" then
      { s with orders := s.orders ++ [d], nextOid := s.nextOid + 1 }
    else { s with nextOid := s.nextOid + 1 }
  (i, s')

/-- Modelled from the spec: `get_documents` lives in the absent `database`
module.  Per the spec, "getDocuments(collectionName) -> orderedSequence:
returns all documents in a collection", each still carrying its internal
`_id` field. -/
def get_documents (coll : String) (s : Store) : List Doc :=
  if coll = "vendor" then s.vendors
  else if coll = "catalogproduct" then s.products
  else if coll = "order" then s.orders
  else []

/-- MongoDB `find_one({"_id": o})`: first document whose `_id` equals the
given ObjectId. -/
def findOneById (l : List Doc) (i : String) : Option Doc :=
  l.find? (fun d => match dGet? d "_id" with
                    | some (.vId j) => j == i
                    | _ => false)

/-- Python truthiness of a `find_one` result (`if not vendor:` / `if not
prod:`): `None` and the empty dict are falsy. -/
def pyFalsyDoc : Option Doc → Bool
  | none => true
  | some d => d.isEmpty

/-- The response-shaping step `v["id"] = str(v.pop("_id"))`: remove the raw
internal identifier, then bind `id` to its string form.  Raises `KeyError`
(`none`) when the document has no `_id`. -/
def normalizeDoc (d : Doc) : Option Doc :=
  match dGet? d "_id" with
  | none => none
  | some v => some (dSet (dRemove d "_id") "id" (Value.vStr (pyStr v)))

/-- The per-document normalization loop of the list endpoints
(`for v in vendors: v["id"] = str(v.pop("_id"))`). -/
def normalizeAll : List Doc → Option (List Doc)
  | [] => some []
  | d :: ds =>
      match normalizeDoc d with
      | none => none
      | some nd =>
          match normalizeAll ds with
          | none => none
          | some nds => some (nd :: nds)

/-! ## MongoDB query semantics used by `list_products` / `list_orders`

`list_products` sends `{"title": {"$regex": q, "$options": "i"}}`, i.e. `q` is
interpreted by MongoDB as a case-insensitive PCRE pattern searched anywhere in
the field.  We model the pattern language on the fragment actually needed by
the development: literal characters and the wildcard `.` (any character except
newline), matched case-insensitively.  No theorem exercises a pattern using
any other PCRE metacharacter. -/

/-- One pattern character against one subject character, case-insensitively:
`.` is the PCRE wildcard (anything but newline). -/
def charMatches (pc c : Char) : Bool :=
  if pc = '.' then c != '\n' else pc.toLower == c.toLower

/-- Match the whole pattern at the head of the subject. -/
def matchHere : List Char → List Char → Bool
  | [], _ => true
  | _ :: _, [] => false
  | pc :: ps, c :: cs => charMatches pc c && matchHere ps cs

/-- PCRE unanchored search: try the pattern at every position. -/
def searchFrom (p : List Char) : List Char → Bool
  | [] => matchHere p []
  | c :: cs => matchHere p (c :: cs) || searchFrom p cs

/-- MongoDB `{"$regex": pat, "$options": "i"}` applied to a string field. -/
def regexMatchI (pat s : String) : Bool :=
  searchFrom pat.toList s.toList

/-- A query condition as built by the handlers: exact string equality or a
case-insensitive regex. -/
inductive QCond where
  | eqStr (s : String)
  | regexI (pat : String)

/-- MongoDB evaluation of one condition against a field value: equality
matches equal strings, `$regex` matches only string fields satisfying the
pattern. -/
def condMatch (v : Option Value) : QCond → Bool
  | .eqStr s => match v with
                | some (.vStr t) => t == s
                | _ => false
  | .regexI p => match v with
                 | some (.vStr t) => regexMatchI p t
                 | _ => false

/-- MongoDB `find(query)` predicate: every query key must match. -/
def docMatches (query : List (String × QCond)) (d : Doc) : Bool :=
  query.all (fun kc => condMatch (dGet? d kc.1) kc.2)

/-- Python truthiness of an optional query parameter (`if vendor_id:`):
`None` and the empty string are falsy. -/
def strTruthy : Option String → Option String
  | some s => if s.isEmpty then none else some s
  | none => none

/-! ## Sorting for `list_orders`

`list_orders` calls `.sort("created_at", -1)`.  MongoDB treats a missing sort
field as null (the minimum), and documents with equal keys keep their natural
(insertion) order; we model this as a stable insertion sort, descending on the
`created_at` field.  The comparison of two present values approximates the
BSON type bracketing (nothing this application writes ever has a
`created_at`, so no theorem depends on the present-present case). -/

/-- Approximate BSON type rank (null < numbers < strings < ObjectId <
containers). -/
def valueRank : Value → Nat
  | .vNull => 0
  | .vNum _ => 1
  | .vInt _ => 1
  | .vStr _ => 2
  | .vId _ => 3
  | .vList _ => 4
  | .vDoc _ => 4

/-- Strict BSON-order comparison of present values (approximation;
unexercised by theorems). -/
def valueGT : Value → Value → Bool
  | .vNum a, .vNum b => decide (b < a)
  | .vNum a, .vInt b => decide ((b : ℚ) < a)
  | .vInt a, .vNum b => decide (b < (a : ℚ))
  | .vInt a, .vInt b => decide (b < a)
  | .vStr a, .vStr b => decide (b < a)
  | .vId a, .vId b => decide (b < a)
  | v, w => decide (valueRank w < valueRank v)

/-- Descending comparison on optional sort keys: a missing field is the
minimum. -/
def keyGT : Option Value → Option Value → Bool
  | none, _ => false
  | some _, none => true
  | some v, some w => valueGT v w

/-- The `created_at` sort key of an order document. -/
def createdKey (d : Doc) : Option Value := dGet? d "created_at"

/-- Stable insertion step for the descending sort: a document goes before
the first element whose key is not strictly greater. -/
def insertDesc (x : Doc) : List Doc → List Doc
  | [] => [x]
  | y :: ys =>
      if keyGT (createdKey y) (createdKey x) then y :: insertDesc x ys
      else x :: y :: ys

/-- MongoDB `.sort("created_at", -1)`: stable descending sort. -/
def sortCreatedDesc : List Doc → List Doc
  | [] => []
  | x :: xs => insertDesc x (sortCreatedDesc xs)

/-! ## Endpoint handlers -/

/-- The `{"id": ...}` body returned by the creation endpoints. -/
structure CreateResp where
  id : String
deriving DecidableEq, Repr

/-- The `{"id", "total", "status"}` body returned by `POST /orders`. -/
structure OrderResp where
  id : String
  total : ℚ
  status : String
deriving DecidableEq, Repr

/-- `POST /vendors` (`create_vendor`): insert the payload dump, return the
new id. -/
def create_vendor (payload : VendorIn) (s : Store) : Store × CreateResp :=
  let (vid, s') := create_document "vendor" payload.model_dump s
  (s', ⟨vid⟩)

/-- `GET /vendors` (`list_vendors`): all vendor documents with `id`
normalized; a document without `_id` would raise `KeyError` (500). -/
def list_vendors (s : Store) : Except HTTPError (List Doc) :=
  match normalizeAll (get_documents "vendor" s) with
  | some l => .ok l
  | none => .error err500

/-- `POST /products` (`create_product`): parse `vendor_id`, require the
vendor to exist (Python truthiness of the `find_one` result), then insert the
payload dump verbatim and return the new id. -/
def create_product (payload : ProductIn) (s : Store) :
    Store × Except HTTPError CreateResp :=
  match oid payload.vendor_id with
  | .error e => (s, .error e)
  | .ok vid =>
      let vendor := findOneById s.vendors vid
      if pyFalsyDoc vendor then (s, .error ⟨404, "Vendor not found"⟩)
      else
        let (pid, s') := create_document "catalogproduct" payload.model_dump s
        (s', .ok ⟨pid⟩)

/-- The filter dict built by `list_products` (keys in source order:
`vendor_id`, `category`, `title`). -/
def productQuery (vendor_id q category : Option String) :
    List (String × QCond) :=
  (match strTruthy vendor_id with
   | some v => [("vendor_id", QCond.eqStr v)]
   | none => [])
  ++ (match strTruthy category with
      | some c => [("category", QCond.eqStr c)]
      | none => [])
  ++ (match strTruthy q with
      | some qs => [("title", QCond.regexI qs)]
      | none => [])

/-- `GET /products` (`list_products`): filtered find capped at 100, each
result normalized. -/
def list_products (vendor_id q category : Option String) (s : Store) :
    Except HTTPError (List Doc) :=
  let query := productQuery vendor_id q category
  match normalizeAll ((s.products.filter (docMatches query)).take 100) with
  | some l => .ok l
  | none => .error err500

/-- `GET /products/{product_id}` (`get_product`): parse the id, look up,
404 on a falsy result, normalize. -/
def get_product (product_id : String) (s : Store) : Except HTTPError Doc :=
  match oid product_id with
  | .error e => .error e
  | .ok pid =>
      match findOneById s.products pid with
      | none => .error ⟨404, "Product not found"⟩
      | some p =>
          if p.isEmpty then .error ⟨404, "Product not found"⟩
          else
            match normalizeDoc p with
            | some np => .ok np
            | none => .error err500

/-- One iteration of the `create_order` line loop for item `it`: parse the
product id, look the product up (falsy result is 404), check stock
(`int(prod.get("stock", 0)) < it.quantity` raises the insufficient-stock
error), and produce the line snapshot together with
`line_total = float(prod.get("price", 0)) * it.quantity`. -/
def lineOf (s : Store) (it : OrderItemIn) : Except HTTPError (Doc × ℚ) :=
  match oid it.product_id with
  | .error e => .error e
  | .ok pid =>
      match findOneById s.products pid with
      | none => .error ⟨404, s!"Product {it.product_id} not found"⟩
      | some prod =>
          if prod.isEmpty then
            .error ⟨404, s!"Product {it.product_id} not found"⟩
          else
            match toPyInt (dGetD prod "stock" (.vInt 0)) with
            | none => .error err500
            | some st =>
                if st < it.quantity then
                  .error ⟨400, "Insufficient stock for "
                                ++ pyStr (dGetD prod "title" .vNull)⟩
                else
                  match toPyFloat (dGetD prod "price" (.vInt 0)) with
                  | none => .error err500
                  | some pr =>
                      .ok ([("product_id", .vStr it.product_id),
                            ("quantity", .vInt it.quantity),
                            ("price", .vNum pr),
                            ("title", dGetD prod "title" .vNull),
                            ("vendor_id", dGetD prod "vendor_id" .vNull)],
                           pr * (it.quantity : ℚ))

/-- The `for it in payload.items` loop of `create_order`, accumulating the
line snapshots and the running total; the first failing line aborts the
whole loop. -/
def orderLoop (s : Store) :
    List OrderItemIn → List Doc → ℚ → Except HTTPError (List Doc × ℚ)
  | [], acc, total => .ok (acc, total)
  | it :: rest, acc, total =>
      match lineOf s it with
      | .error e => .error e
      | .ok (d, lt) => orderLoop s rest (acc ++ [d]) (total + lt)

/-- Banker's rounding of Python's `round` builtin (ties to even), idealised
over ℚ. -/
def roundHalfEven (x : ℚ) : ℤ :=
  let n := ⌊x⌋
  let r := x - n
  if r < 1 / 2 then n
  else if 1 / 2 < r then n + 1
  else if n % 2 = 0 then n else n + 1

/-- Python `round(x, 2)`. -/
def round2 (x : ℚ) : ℚ := (roundHalfEven (x * 100) : ℚ) / 100

/-- `POST /orders` (`create_order`): reject empty item lists, run the line
loop, and only after every line succeeded persist the order document with
`status = "pending"` and the rounded total. -/
def create_order (payload : OrderIn) (s : Store) :
    Store × Except HTTPError OrderResp :=
  if payload.items.isEmpty then
    (s, .error ⟨400, "Order must have items"⟩)
  else
    match orderLoop s payload.items [] 0 with
    | .error e => (s, .error e)
    | .ok (items, total) =>
        let order_doc : Doc :=
          [("buyer_email", .vStr payload.buyer_email),
           ("items", .vList (items.map .vDoc)),
           ("total", .vNum (round2 total)),
           ("status", .vStr "pending")]
        let (oid_str, s') := create_document "order" order_doc s
        (s', .ok ⟨oid_str, round2 total, "pending"⟩)

/-- `GET /orders` (`list_orders`): optional exact `buyer_email` filter,
descending `created_at` sort, cap at 50, normalize. -/
def list_orders (buyer_email : Option String) (s : Store) :
    Except HTTPError (List Doc) :=
  let query : List (String × QCond) :=
    match strTruthy buyer_email with
    | some b => [("buyer_email", QCond.eqStr b)]
    | none => []
  match normalizeAll
      ((sortCreatedDesc (s.orders.filter (docMatches query))).take 50) with
  | some l => .ok l
  | none => .error err500

/-! ## Specification-side vocabulary

Definitions below phrase the spec's hypotheses and expected results in terms
of the embedded code, for use in theorem statements. -/

/-- A requested order line "succeeds" in the sense of the spec: the product
id parses, the product exists (as a truthy document), its computed stock
covers the requested quantity, and its price converts to a float. -/
def lineOk (s : Store) (it : OrderItemIn) : Prop :=
  ∃ d, isValidOid it.product_id = true ∧
    findOneById s.products it.product_id = some d ∧ d ≠ [] ∧
    (∃ st, toPyInt (dGetD d "stock" (.vInt 0)) = some st ∧ it.quantity ≤ st) ∧
    (∃ pr, toPyFloat (dGetD d "price" (.vInt 0)) = some pr)

/-- The product document an order line resolves to, if any. -/
def resolvedProduct (s : Store) (pid : String) : Option Doc :=
  if isValidOid pid then findOneById s.products pid else none

/-- The price snapshot an order line takes (0 when unresolvable; under
`lineOk` this is the product's converted price). -/
def resolvedPrice (s : Store) (it : OrderItemIn) : ℚ :=
  match resolvedProduct s it.product_id with
  | some d => (toPyFloat (dGetD d "price" (.vInt 0))).getD 0
  | none => 0

/-- The line snapshot document recorded for a resolvable order line. -/
def lineDocOf (s : Store) (it : OrderItemIn) : Doc :=
  match resolvedProduct s it.product_id with
  | some d =>
      [("product_id", .vStr it.product_id),
       ("quantity", .vInt it.quantity),
       ("price", .vNum ((toPyFloat (dGetD d "price" (.vInt 0))).getD 0)),
       ("title", dGetD d "title" .vNull),
       ("vendor_id", dGetD d "vendor_id" .vNull)]
  | none => []

/-- A line's contribution to the order total: price times quantity. -/
def lineTotal (s : Store) (it : OrderItemIn) : ℚ :=
  resolvedPrice s it * (it.quantity : ℚ)

/-- Case-insensitive exact prefix comparison on lowered character lists. -/
def prefEq : List Char → List Char → Bool
  | [], _ => true
  | _ :: _, [] => false
  | a :: as, b :: bs => (a == b) && prefEq as bs

/-- Substring search on character lists. -/
def subSearch (n : List Char) : List Char → Bool
  | [] => prefEq n []
  | b :: bs => prefEq n (b :: bs) || subSearch n bs

/-- The spec's "case-insensitive substring match of `q` against `title`". -/
def specSubstrCI (title q : String) : Bool :=
  subSearch (q.toList.map Char.toLower) (title.toList.map Char.toLower)

/-- PCRE metacharacters.  A `q` avoiding all of these is matched by
`$regex` exactly as a literal substring. -/
def pcreMeta : List Char :=
  ['.', '*', '+', '?', '[', ']', '(', ')', '{', '}', '^', '$', '\\', '|']

/-- `q` contains no PCRE metacharacter. -/
def noMeta (q : String) : Bool :=
  q.toList.all (fun c => !(pcreMeta.contains c))

/-- The spec's product-listing filter: logical AND of the provided filters,
with `vendor_id` and `category` by exact match and `q` as a case-insensitive
substring match against `title`. -/
def specProductKeep (vendor_id q category : Option String) (d : Doc) : Bool :=
  (match strTruthy vendor_id with
   | some v => match dGet? d "vendor_id" with
               | some (.vStr t) => t == v
               | _ => false
   | none => true)
  && (match strTruthy category with
      | some c => match dGet? d "category" with
                  | some (.vStr t) => t == c
                  | _ => false
      | none => true)
  && (match strTruthy q with
      | some qs => match dGet? d "title" with
                   | some (.vStr t) => specSubstrCI t qs
                   | _ => false
      | none => true)

/-! ## Helper lemmas: document operations -/

theorem dGet?_dSet_self (d : Doc) (k : String) (v : Value) :
    dGet? (dSet d k v) k = some v := by
  induction d with
  | nil => simp [dSet, dGet?]
  | cons kv t ih =>
      obtain ⟨k', v'⟩ := kv
      by_cases h : k' = k
      · simp [dSet, h, dGet?]
      · simp [dSet, h, dGet?, ih]

theorem dGet?_dSet_ne (d : Doc) (k k' : String) (v : Value) (h : k' ≠ k) :
    dGet? (dSet d k v) k' = dGet? d k' := by
  induction d with
  | nil => simp [dSet, dGet?, Ne.symm h]
  | cons kv t ih =>
      obtain ⟨k₀, v₀⟩ := kv
      by_cases h₀ : k₀ = k
      · subst h₀
        simp [dSet, dGet?, Ne.symm h]
      · simp only [dSet, if_neg h₀]
        by_cases h₁ : k₀ = k'
        · simp [dGet?, h₁]
        · simp [dGet?, h₁, ih]

theorem dGet?_dRemove_self (d : Doc) (k : String) :
    dGet? (dRemove d k) k = none := by
  induction d with
  | nil => simp [dRemove, dGet?]
  | cons kv t ih =>
      obtain ⟨k', v'⟩ := kv
      by_cases h : k' = k
      · simpa [dRemove, h] using ih
      · simpa [dRemove, List.filter_cons, h, dGet?] using ih

theorem normalizeDoc_fields (d nd : Doc) (h : normalizeDoc d = some nd) :
    (∃ str, dGet? nd "id" = some (.vStr str)) ∧ dGet? nd "_id" = none := by
  unfold normalizeDoc at h
  cases hv : dGet? d "_id" with
  | none => rw [hv] at h; cases h
  | some v =>
      rw [hv] at h
      cases h
      refine ⟨⟨pyStr v, dGet?_dSet_self _ _ _⟩, ?_⟩
      rw [dGet?_dSet_ne _ _ _ _ (by decide)]
      exact dGet?_dRemove_self d "_id"

theorem normalizeAll_mem (l nl : List Doc) (h : normalizeAll l = some nl) :
    ∀ nd ∈ nl, ∃ d, normalizeDoc d = some nd := by
  induction l generalizing nl with
  | nil =>
      simp [normalizeAll] at h
      subst h
      simp
  | cons d ds ih =>
      unfold normalizeAll at h
      cases hd : normalizeDoc d with
      | none => rw [hd] at h; cases h
      | some nd₀ =>
          rw [hd] at h
          cases hds : normalizeAll ds with
          | none => rw [hds] at h; cases h
          | some nds =>
              rw [hds] at h
              cases h
              intro nd hnd
              rcases List.mem_cons.mp hnd with h₁ | h₂
              · exact ⟨d, h₁ ▸ hd⟩
              · exact ih nds hds nd h₂

/-! ## Helper lemmas: the order-creation line loop -/

theorem orderLoop_nil (s : Store) (acc : List Doc) (t : ℚ) :
    orderLoop s [] acc t = .ok (acc, t) := rfl

theorem orderLoop_cons (s : Store) (it : OrderItemIn)
    (rest : List OrderItemIn) (acc : List Doc) (t : ℚ) :
    orderLoop s (it :: rest) acc t =
      match lineOf s it with
      | .error e => .error e
      | .ok (d, lt) => orderLoop s rest (acc ++ [d]) (t + lt) := rfl

theorem lineOf_eq_of_lineOk (s : Store) (it : OrderItemIn)
    (h : lineOk s it) :
    lineOf s it = .ok (lineDocOf s it, lineTotal s it) := by
  obtain ⟨d, hv, hf, hne, ⟨st, hst, hle⟩, ⟨pr, hpr⟩⟩ := h
  have hres : resolvedProduct s it.product_id = some d := by
    simp [resolvedProduct, hv, hf]
  have hempty : d.isEmpty = false := by
    cases d with
    | nil => exact absurd rfl hne
    | cons a t => rfl
  unfold lineOf
  simp only [oid, hv, if_true, hf, hempty, Bool.false_eq_true, if_false,
    hst, if_neg (not_lt.mpr hle), hpr]
  unfold lineDocOf lineTotal resolvedPrice
  rw [hres]
  simp [hpr]

theorem lineOk_of_lineOf_ok (s : Store) (it : OrderItemIn)
    (o : Doc × ℚ) (h : lineOf s it = .ok o) : lineOk s it := by
  unfold lineOf at h
  cases hv : isValidOid it.product_id with
  | false => simp [oid, hv] at h
  | true =>
      simp only [oid, hv, if_true] at h
      cases hf : findOneById s.products it.product_id with
      | none => simp only [hf] at h; cases h
      | some d =>
          simp only [hf] at h
          cases hemp : d.isEmpty with
          | true => simp [hemp] at h
          | false =>
              simp only [hemp, Bool.false_eq_true, if_false] at h
              cases hst : toPyInt (dGetD d "stock" (.vInt 0)) with
              | none => simp only [hst] at h; cases h
              | some st =>
                  simp only [hst] at h
                  by_cases hlt : st < it.quantity
                  · rw [if_pos hlt] at h; cases h
                  · rw [if_neg hlt] at h
                    cases hpr : toPyFloat (dGetD d "price" (.vInt 0)) with
                    | none => simp only [hpr] at h; cases h
                    | some pr =>
                        exact ⟨d, hv, hf,
                          by simpa [List.isEmpty_iff] using hemp,
                          ⟨st, hst, not_lt.mp hlt⟩, ⟨pr, hpr⟩⟩

theorem orderLoop_ok_of_all (s : Store) (items : List OrderItemIn)
    (h : ∀ it ∈ items, lineOk s it) :
    ∀ acc t, orderLoop s items acc t =
      .ok (acc ++ items.map (lineDocOf s),
           t + (items.map (lineTotal s)).sum) := by
  induction items with
  | nil => intro acc t; simp [orderLoop_nil]
  | cons it rest ih =>
      intro acc t
      have hit : lineOk s it := h it (List.mem_cons_self it rest)
      rw [orderLoop_cons, lineOf_eq_of_lineOk s it hit]
      show orderLoop s rest (acc ++ [lineDocOf s it]) (t + lineTotal s it) = _
      rw [ih (fun j hj => h j (List.mem_cons_of_mem it hj))]
      simp [add_assoc]

theorem all_ok_of_orderLoop_ok (s : Store) (items : List OrderItemIn)
    (acc : List Doc) (t : ℚ) (r : List Doc × ℚ)
    (h : orderLoop s items acc t = .ok r) :
    ∀ it ∈ items, lineOk s it := by
  induction items generalizing acc t with
  | nil => intro it hit; cases hit
  | cons j rest ih =>
      rw [orderLoop_cons] at h
      cases hj : lineOf s j with
      | error e => rw [hj] at h; cases h
      | ok o =>
          rw [hj] at h
          intro it hit
          rcases List.mem_cons.mp hit with h₁ | h₂
          · exact h₁ ▸ lineOk_of_lineOf_ok s j o hj
          · obtain ⟨d, lt⟩ := o
            exact ih _ _ h it h₂

theorem orderLoop_error_at (s : Store) (pre : List OrderItemIn)
    (it : OrderItemIn) (rest : List OrderItemIn) (e : HTTPError)
    (hpre : ∀ j ∈ pre, lineOk s j) (hit : lineOf s it = .error e) :
    ∀ acc t, orderLoop s (pre ++ it :: rest) acc t = .error e := by
  induction pre with
  | nil =>
      intro acc t
      rw [List.nil_append, orderLoop_cons, hit]
  | cons j pre' ih =>
      intro acc t
      have hj : lineOk s j := hpre j (List.mem_cons_self j pre')
      rw [List.cons_append, orderLoop_cons, lineOf_eq_of_lineOk s j hj]
      show orderLoop s (pre' ++ it :: rest) _ _ = _
      exact ih (fun j' hj' => hpre j' (List.mem_cons_of_mem j hj')) _ _

/-- The order document persisted on a successful `create_order`. -/
def orderDocOf (payload : OrderIn) (s : Store) : Doc :=
  [("buyer_email", .vStr payload.buyer_email),
   ("items", .vList ((payload.items.map (lineDocOf s)).map .vDoc)),
   ("total", .vNum (round2 ((payload.items.map (lineTotal s)).sum))),
   ("status", .vStr "pending"),
   ("_id", .vId (genOid s.nextOid))]

theorem create_order_success_eq (payload : OrderIn) (s : Store)
    (hne : payload.items ≠ [])
    (hok : ∀ it ∈ payload.items, lineOk s it) :
    create_order payload s =
      ({ s with orders := s.orders ++ [orderDocOf payload s],
                nextOid := s.nextOid + 1 },
       .ok ⟨genOid s.nextOid,
            round2 ((payload.items.map (lineTotal s)).sum), "pending"⟩) := by
  have hne' : payload.items.isEmpty = false := by
    cases hi : payload.items with
    | nil => exact absurd hi hne
    | cons a l => rfl
  unfold create_order
  rw [hne']
  simp only [Bool.false_eq_true, if_false]
  rw [orderLoop_ok_of_all s payload.items hok [] 0]
  simp only [List.nil_append, zero_add]
  unfold create_document orderDocOf
  simp

theorem isEmpty_false_of_ne_nil {α : Type} (l : List α) (h : l ≠ []) :
    l.isEmpty = false := by
  cases l with
  | nil => exact absurd rfl h
  | cons a t => rfl

theorem orderLoop_ok_of_create_order_ok (payload : OrderIn) (s : Store)
    (r : OrderResp) (h : (create_order payload s).2 = .ok r) :
    ∃ pr, orderLoop s payload.items [] 0 = .ok pr := by
  unfold create_order at h
  cases hi : payload.items.isEmpty with
  | true => simp [hi] at h
  | false =>
      simp only [hi, Bool.false_eq_true, if_false] at h
      cases hl : orderLoop s payload.items [] 0 with
      | error e => simp [hl] at h
      | ok pr => exact ⟨pr, rfl⟩

theorem create_order_state_of_error (payload : OrderIn) (s : Store)
    (e : HTTPError) (h : (create_order payload s).2 = .error e) :
    (create_order payload s).1 = s := by
  unfold create_order at h ⊢
  cases hi : payload.items.isEmpty with
  | true => simp [hi]
  | false =>
      simp only [hi, Bool.false_eq_true, if_false] at h ⊢
      cases hl : orderLoop s payload.items [] 0 with
      | error e' => simp [hl]
      | ok pr =>
          obtain ⟨items, total⟩ := pr
          simp [hl] at h

/-! ## Concrete fixtures for witnesses and counterexamples -/

/-- A valid 24-hex-character ObjectId string. -/
def demoPid : String := "aaaaaaaaaaaaaaaaaaaaaaaa"

/-- A product document: price 10.0, stock 5, title "Blue Shirt". -/
def demoProduct : Doc :=
  [("vendor_id", .vStr "v1"), ("title", .vStr "Blue Shirt"),
   ("price", .vNum 10), ("stock", .vInt 5), ("_id", .vId demoPid)]

/-- A store holding the single demo product, creation counter at 7. -/
def demoStore : Store := ⟨[], [demoProduct], [], 7⟩

/-- The spec's example order: a single line `{product_id: P, quantity: 2}`. -/
def demoOrder : OrderIn := ⟨"buyer@example.com", [⟨demoPid, 2⟩]⟩

theorem demo_lines_ok : ∀ it ∈ demoOrder.items, lineOk demoStore it := by
  intro it hit
  have : it = ⟨demoPid, 2⟩ := by
    simpa [demoOrder] using hit
  subst this
  exact ⟨demoProduct, by decide, rfl, by simp [demoProduct],
         ⟨5, rfl, by norm_num⟩, ⟨10, rfl⟩⟩

/-! ## The claims -/

/-- **C1.** For every order-creation request in which every line's product
exists (with its stock and price fields convertible) and has stock ≥
quantity, `create_order` persists exactly one Order document — appended to
the orders collection, with `status = "pending"` and `total` the 2-decimal
rounding of the sum over lines of price times quantity, one snapshot line per
requested line — and returns `{id, total, status}` with that total and
status "pending".  Instantiated by its witness at the spec's example
(one line, quantity 2, price 10.0, stock 5 ⟶ total 20.00). -/
theorem c1_order_creation_success (payload : OrderIn) (s : Store)
    (hne : payload.items ≠ [])
    (hok : ∀ it ∈ payload.items, lineOk s it) :
    create_order payload s =
      ({ s with orders := s.orders ++ [orderDocOf payload s],
                nextOid := s.nextOid + 1 },
       .ok ⟨genOid s.nextOid,
            round2 ((payload.items.map (lineTotal s)).sum), "pending"⟩) :=
  create_order_success_eq payload s hne hok

theorem demo_total :
    (List.map (lineTotal demoStore) demoOrder.items).sum = 20 := by
  have hval : isValidOid demoPid = true := by decide
  simp [demoOrder, lineTotal, resolvedPrice, resolvedProduct, hval,
        demoStore, demoProduct, findOneById, dGetD, dGet?, toPyFloat]
  norm_num

theorem round2_twenty : round2 20 = 20 := by
  norm_num [round2, roundHalfEven]

/-- Witness for C1: the spec's concrete example — one line, quantity 2,
price 10.0, stock 5 — gives total 20.00, status "pending", exactly one
persisted order, and a snapshot line with price 10.0 and quantity 2. -/
theorem c1_witness :
    (create_order demoOrder demoStore).2 =
      .ok ⟨genOid 7, 20, "pending"⟩ ∧
    (create_order demoOrder demoStore).1.orders =
      [orderDocOf demoOrder demoStore] ∧
    lineDocOf demoStore ⟨demoPid, 2⟩ =
      [("product_id", .vStr demoPid), ("quantity", .vInt 2),
       ("price", .vNum 10), ("title", .vStr "Blue Shirt"),
       ("vendor_id", .vStr "v1")] := by
  have h := c1_order_creation_success demoOrder demoStore
    (by simp [demoOrder]) demo_lines_ok
  rw [h]
  refine ⟨?_, ?_, ?_⟩
  · rw [demo_total, round2_twenty]; rfl
  · rfl
  · have hval : isValidOid demoPid = true := by decide
    simp [lineDocOf, resolvedProduct, hval, demoStore, demoProduct,
          findOneById, dGetD, dGet?, toPyFloat]

/-- **C3.** An order-creation request with an empty items list fails with the
400 "Order must have items" error; the result (same error, unchanged store)
is identical for every store state, so no product lookup or other store
access can influence it. -/
theorem c3_empty_items_rejected (payload : OrderIn)
    (h : payload.items = []) :
    ∀ s : Store, create_order payload s =
      (s, .error ⟨400, "Order must have items"⟩) := by
  intro s
  unfold create_order
  rw [h]
  rfl

/-- Witness for C3 at a concrete empty-items payload and store. -/
theorem c3_witness :
    create_order ⟨"nobody@example.com", []⟩ demoStore =
      (demoStore, .error ⟨400, "Order must have items"⟩) :=
  c3_empty_items_rejected ⟨"nobody@example.com", []⟩ rfl demoStore

/-- **C2.** Order creation is all-or-nothing: (i) whenever `create_order`
returns an error the store is left exactly as it was (no Order persisted);
(ii) if any requested line fails to resolve, the whole operation errors;
(iii) the error returned is the one raised by the first failing line, the
earlier lines all having succeeded; (iv) a line whose product has
stock < quantity raises precisely the 400
"Insufficient stock for {title}" error. -/
theorem c2_failure_all_or_nothing (payload : OrderIn) (s : Store) :
    (∀ e, (create_order payload s).2 = .error e →
       (create_order payload s).1 = s)
    ∧ ((∃ it ∈ payload.items, ¬ lineOk s it) →
        ∃ e, (create_order payload s).2 = .error e)
    ∧ (∀ pre it rest e, payload.items = pre ++ it :: rest →
        (∀ j ∈ pre, lineOk s j) → lineOf s it = .error e →
        create_order payload s = (s, .error e))
    ∧ (∀ (it : OrderItemIn) (d : Doc) (st : Int),
        isValidOid it.product_id = true →
        findOneById s.products it.product_id = some d → d ≠ [] →
        toPyInt (dGetD d "stock" (.vInt 0)) = some st → st < it.quantity →
        lineOf s it = .error ⟨400, "Insufficient stock for "
                                    ++ pyStr (dGetD d "title" .vNull)⟩) := by
  refine ⟨fun e he => create_order_state_of_error payload s e he,
          ?_, ?_, ?_⟩
  · rintro ⟨it, hit, hnot⟩
    cases hres : (create_order payload s).2 with
    | error e => exact ⟨e, rfl⟩
    | ok r =>
        obtain ⟨pr, hpr⟩ := orderLoop_ok_of_create_order_ok payload s r hres
        exact absurd (all_ok_of_orderLoop_ok s payload.items [] 0 pr hpr
          it hit) hnot
  · intro pre it rest e heq hpre hit
    have hne : payload.items.isEmpty = false := by
      rw [heq]
      exact isEmpty_false_of_ne_nil _ (by simp)
    unfold create_order
    rw [hne]
    simp only [Bool.false_eq_true, if_false]
    rw [heq, orderLoop_error_at s pre it rest e hpre hit [] 0]
  · intro it d st hv hf hne hst hlt
    have hemp : d.isEmpty = false := isEmpty_false_of_ne_nil d hne
    unfold lineOf
    simp only [oid, hv, if_true, hf, hemp, Bool.false_eq_true, if_false,
      hst, if_pos hlt]

/-- A request for quantity 6 of the stock-5 demo product. -/
def demoOverOrder : OrderIn := ⟨"buyer@example.com", [⟨demoPid, 6⟩]⟩

/-- Witness for C2: requesting 6 units of the stock-5 demo product fails
with the insufficient-stock error naming the product, and the store —
including the orders collection — is returned unchanged. -/
theorem c2_witness :
    create_order demoOverOrder demoStore =
      (demoStore,
       .error ⟨400, "Insufficient stock for Blue Shirt"⟩) := by
  have hline : lineOf demoStore ⟨demoPid, 6⟩ =
      .error ⟨400, "Insufficient stock for Blue Shirt"⟩ := by
    have h := (c2_failure_all_or_nothing demoOverOrder demoStore).2.2.2
      ⟨demoPid, 6⟩ demoProduct 5 (by decide) rfl (by simp [demoProduct])
      rfl (by norm_num)
    simpa [demoProduct, dGetD, dGet?, pyStr] using h
  exact (c2_failure_all_or_nothing demoOverOrder demoStore).2.2.1
    [] ⟨demoPid, 6⟩ [] _ rfl (by intro j hj; cases hj) hline

/-- **C4.** Product creation: a malformed `vendor_id` fails with the
invalid-format error for every store state (so before any store access); a
well-formed `vendor_id` naming no existing vendor fails with the 404
"Vendor not found" error; in both failure cases the store is unchanged (no
product inserted); and when the vendor exists (as a non-empty document) the
product document is inserted verbatim — the payload dump plus the
store-assigned `_id` — and `{id}` is returned. -/
theorem c4_create_product_vendor_check (payload : ProductIn) (s : Store) :
    (isValidOid payload.vendor_id = false →
       create_product payload s = (s, .error invalidIdErr))
    ∧ (isValidOid payload.vendor_id = true →
       findOneById s.vendors payload.vendor_id = none →
       create_product payload s = (s, .error ⟨404, "Vendor not found"⟩))
    ∧ (∀ v, isValidOid payload.vendor_id = true →
       findOneById s.vendors payload.vendor_id = some v → v ≠ [] →
       create_product payload s =
         ({ s with
              products := s.products
                ++ [payload.model_dump ++ [("_id", .vId (genOid s.nextOid))]],
              nextOid := s.nextOid + 1 },
          .ok ⟨genOid s.nextOid⟩)) := by
  refine ⟨?_, ?_, ?_⟩
  · intro hv
    unfold create_product
    simp [oid, hv, invalidIdErr]
  · intro hv hf
    unfold create_product
    simp [oid, hv, hf, pyFalsyDoc]
  · intro v hv hf hne
    have hemp : v.isEmpty = false := isEmpty_false_of_ne_nil v hne
    unfold create_product
    simp only [oid, hv, if_true, hf, pyFalsyDoc, hemp,
      Bool.false_eq_true, if_false]
    unfold create_document
    simp

/-- A vendor document for the demo store. -/
def demoVid : String := "bbbbbbbbbbbbbbbbbbbbbbbb"

/-- The demo vendor document. -/
def demoVendor : Doc :=
  [("name", .vStr "Acme"), ("description", .vNull),
   ("email", .vStr "acme@example.com"), ("_id", .vId demoVid)]

/-- A store holding the demo vendor only. -/
def demoVendorStore : Store := ⟨[demoVendor], [], [], 3⟩

/-- The demo product-creation payload referencing the demo vendor. -/
def demoProductIn : ProductIn :=
  ⟨demoVid, "Blue Shirt", none, 10, 5, some "apparel", none⟩

/-- Witness for C4: all three branches at concrete inputs — malformed
vendor id, absent vendor, and successful verbatim insert. -/
theorem c4_witness :
    create_product { demoProductIn with vendor_id := "junk" }
        demoVendorStore = (demoVendorStore, .error invalidIdErr)
    ∧ create_product { demoProductIn with vendor_id := demoPid }
        demoVendorStore =
        (demoVendorStore, .error ⟨404, "Vendor not found"⟩)
    ∧ create_product demoProductIn demoVendorStore =
        ({ demoVendorStore with
             products := [demoProductIn.model_dump
                           ++ [("_id", .vId (genOid 3))]],
             nextOid := 4 },
         .ok ⟨genOid 3⟩) := by
  refine ⟨(c4_create_product_vendor_check _ demoVendorStore).1 (by decide),
          (c4_create_product_vendor_check _ demoVendorStore).2.1
            (by decide) rfl,
          ?_⟩
  rw [(c4_create_product_vendor_check demoProductIn demoVendorStore).2.2
        demoVendor (by decide) rfl (by simp [demoVendor])]
  rfl

/-- **C5.** Every client-supplied identifier string that `bson.ObjectId`
rejects makes the operation fail with the 400 "Invalid ID format" error
before any store access for it: `get_product` returns that error for every
store state; `create_product` returns it (store unchanged) for every store
state; and `create_order` returns it (store unchanged) whenever the
malformed id sits on the first line not yet resolved (all earlier lines
succeeding). -/
theorem c5_invalid_id_rejected (idStr : String)
    (h : isValidOid idStr = false) :
    (∀ s : Store, get_product idStr s = .error invalidIdErr)
    ∧ (∀ (payload : ProductIn) (s : Store), payload.vendor_id = idStr →
        create_product payload s = (s, .error invalidIdErr))
    ∧ (∀ (payload : OrderIn) (s : Store) (pre : List OrderItemIn)
        (it : OrderItemIn) (rest : List OrderItemIn),
        payload.items = pre ++ it :: rest → it.product_id = idStr →
        (∀ j ∈ pre, lineOk s j) →
        create_order payload s = (s, .error invalidIdErr)) := by
  refine ⟨?_, ?_, ?_⟩
  · intro s
    unfold get_product
    simp [oid, h, invalidIdErr]
  · intro payload s hpid
    unfold create_product
    simp [oid, hpid, h, invalidIdErr]
  · intro payload s pre it rest heq hpid hpre
    have hline : lineOf s it = .error invalidIdErr := by
      unfold lineOf
      simp [oid, hpid, h, invalidIdErr]
    have hne : payload.items.isEmpty = false := by
      rw [heq]
      exact isEmpty_false_of_ne_nil _ (by simp)
    unfold create_order
    rw [hne]
    simp only [Bool.false_eq_true, if_false]
    rw [heq, orderLoop_error_at s pre it rest invalidIdErr hpre hline [] 0]

/-- Witness for C5: the string "junk" is not a valid ObjectId, and all
three operations reject it with 400 "Invalid ID format" leaving the store
untouched. -/
theorem c5_witness :
    isValidOid "junk" = false
    ∧ get_product "junk" demoStore = .error invalidIdErr
    ∧ create_product { demoProductIn with vendor_id := "junk" } demoStore =
        (demoStore, .error invalidIdErr)
    ∧ create_order ⟨"buyer@example.com", [⟨"junk", 1⟩]⟩ demoStore =
        (demoStore, .error invalidIdErr) := by
  have h := c5_invalid_id_rejected "junk" (by decide)
  exact ⟨by decide, h.1 demoStore, h.2.1 _ demoStore rfl,
         h.2.2 _ demoStore [] ⟨"junk", 1⟩ [] rfl rfl
           (by intro j hj; cases hj)⟩

theorem normalizeAll_fields (l nl : List Doc) (h : normalizeAll l = some nl) :
    ∀ d ∈ nl, (∃ str, dGet? d "id" = some (.vStr str)) ∧
      dGet? d "_id" = none := by
  intro d hd
  obtain ⟨d₀, hd₀⟩ := normalizeAll_mem l nl h d hd
  exact normalizeDoc_fields d₀ d hd₀

/-- **C8.** Every document any list or get endpoint returns to a client
carries an `id` field holding a string, and no raw `_id` field: the
internal identifier is removed and its string form bound to `id`. -/
theorem c8_responses_carry_string_id (s : Store) :
    (∀ l, list_vendors s = .ok l → ∀ d ∈ l,
       (∃ str, dGet? d "id" = some (.vStr str)) ∧ dGet? d "_id" = none)
    ∧ (∀ vq qq cq l, list_products vq qq cq s = .ok l → ∀ d ∈ l,
       (∃ str, dGet? d "id" = some (.vStr str)) ∧ dGet? d "_id" = none)
    ∧ (∀ pid d, get_product pid s = .ok d →
       (∃ str, dGet? d "id" = some (.vStr str)) ∧ dGet? d "_id" = none)
    ∧ (∀ b l, list_orders b s = .ok l → ∀ d ∈ l,
       (∃ str, dGet? d "id" = some (.vStr str)) ∧ dGet? d "_id" = none) := by
  refine ⟨?_, ?_, ?_, ?_⟩
  · intro l hl
    unfold list_vendors at hl
    cases hN : normalizeAll (get_documents "vendor" s) with
    | none => rw [hN] at hl; cases hl
    | some nl =>
        rw [hN] at hl
        cases hl
        exact normalizeAll_fields _ _ hN
  · intro vq qq cq l hl
    unfold list_products at hl
    cases hN : normalizeAll
        ((s.products.filter (docMatches (productQuery vq qq cq))).take 100) with
    | none => simp only [hN] at hl; cases hl
    | some nl =>
        simp only [hN] at hl
        cases hl
        exact normalizeAll_fields _ _ hN
  · intro pid d hd
    unfold get_product at hd
    cases hv : isValidOid pid with
    | false => simp [oid, hv] at hd
    | true =>
        simp only [oid, hv, if_true] at hd
        cases hf : findOneById s.products pid with
        | none => simp only [hf] at hd; cases hd
        | some p =>
            simp only [hf] at hd
            cases hemp : p.isEmpty with
            | true => simp [hemp] at hd
            | false =>
                simp only [hemp, Bool.false_eq_true, if_false] at hd
                cases hn : normalizeDoc p with
                | none => simp only [hn] at hd; cases hd
                | some np =>
                    simp only [hn] at hd
                    cases hd
                    exact normalizeDoc_fields p _ hn
  · intro b l hl
    unfold list_orders at hl
    cases hN : normalizeAll
        ((sortCreatedDesc (s.orders.filter (docMatches
            (match strTruthy b with
             | some bq => [("buyer_email", QCond.eqStr bq)]
             | none => [])))).take 50) with
    | none => simp only [hN] at hl; cases hl
    | some nl =>
        simp only [hN] at hl
        cases hl
        exact normalizeAll_fields _ _ hN

/-- Witness for C8: listing the demo vendor store yields exactly the
normalized vendor document, which carries a string `id` and no `_id`. -/
theorem c8_witness :
    (∃ str, dGet? [("name", Value.vStr "Acme"), ("description", Value.vNull),
       ("email", Value.vStr "acme@example.com"),
       ("id", Value.vStr demoVid)] "id" = some (.vStr str)) ∧
    dGet? [("name", Value.vStr "Acme"), ("description", Value.vNull),
       ("email", Value.vStr "acme@example.com"),
       ("id", Value.vStr demoVid)] "_id" = none :=
  (c8_responses_carry_string_id demoVendorStore).1
    [[("name", .vStr "Acme"), ("description", .vNull),
      ("email", .vStr "acme@example.com"), ("id", .vStr demoVid)]]
    rfl _ (by simp)

/-- **C10.** During order creation, a product document lacking a `stock`
field is treated as stock 0 — any positive requested quantity fails with the
insufficient-stock error — and one lacking a `price` field snapshots price
0.0 and contributes 0.0 to the total. -/
theorem c10_missing_stock_price_defaults (s : Store) (it : OrderItemIn)
    (d : Doc) (hv : isValidOid it.product_id = true)
    (hf : findOneById s.products it.product_id = some d) (hne : d ≠ []) :
    (dGet? d "stock" = none → 0 < it.quantity →
       lineOf s it = .error ⟨400, "Insufficient stock for "
                                    ++ pyStr (dGetD d "title" .vNull)⟩)
    ∧ (dGet? d "price" = none → ∀ st,
       toPyInt (dGetD d "stock" (.vInt 0)) = some st → it.quantity ≤ st →
       lineOf s it = .ok ([("product_id", .vStr it.product_id),
                           ("quantity", .vInt it.quantity),
                           ("price", .vNum 0),
                           ("title", dGetD d "title" .vNull),
                           ("vendor_id", dGetD d "vendor_id" .vNull)], 0)) := by
  have hemp : d.isEmpty = false := isEmpty_false_of_ne_nil d hne
  constructor
  · intro hstock hq
    have hst : toPyInt (dGetD d "stock" (.vInt 0)) = some 0 := by
      simp [dGetD, hstock, toPyInt]
    unfold lineOf
    simp only [oid, hv, if_true, hf, hemp, Bool.false_eq_true, if_false,
      hst, if_pos hq]
  · intro hprice st hst hle
    have hpr : toPyFloat (dGetD d "price" (.vInt 0)) = some 0 := by
      simp [dGetD, hprice, toPyFloat]
    unfold lineOf
    simp only [oid, hv, if_true, hf, hemp, Bool.false_eq_true, if_false,
      hst, if_neg (not_lt.mpr hle), hpr]
    simp

/-- Two further demo ObjectIds. -/
def demoPid2 : String := "cccccccccccccccccccccccc"

/-- A product document with no `stock` field. -/
def demoNoStock : Doc :=
  [("title", .vStr "Ghost"), ("price", .vNum 3), ("_id", .vId demoPid2)]

/-- Another demo ObjectId. -/
def demoPid3 : String := "dddddddddddddddddddddddd"

/-- A product document with no `price` field. -/
def demoNoPrice : Doc :=
  [("title", .vStr "Freebie"), ("stock", .vInt 4), ("_id", .vId demoPid3)]

/-- A store holding the two field-deficient products. -/
def demoSparseStore : Store := ⟨[], [demoNoStock, demoNoPrice], [], 0⟩

/-- Witness for C10: requesting 1 unit of the stockless product fails with
the insufficient-stock error; requesting 2 units of the priceless product
yields a snapshot line with price 0 contributing 0 to the total. -/
theorem c10_witness :
    lineOf demoSparseStore ⟨demoPid2, 1⟩ =
      .error ⟨400, "Insufficient stock for Ghost"⟩
    ∧ lineOf demoSparseStore ⟨demoPid3, 2⟩ =
      .ok ([("product_id", .vStr demoPid3), ("quantity", .vInt 2),
            ("price", .vNum 0), ("title", .vStr "Freebie"),
            ("vendor_id", .vNull)], 0) := by
  constructor
  · have h := (c10_missing_stock_price_defaults demoSparseStore
      ⟨demoPid2, 1⟩ demoNoStock (by decide) rfl
      (by simp [demoNoStock])).1 rfl (by norm_num)
    simpa [demoNoStock, dGetD, dGet?, pyStr] using h
  · have h := (c10_missing_stock_price_defaults demoSparseStore
      ⟨demoPid3, 2⟩ demoNoPrice (by decide) rfl
      (by simp [demoNoPrice])).2 rfl 4 rfl (by norm_num)
    simpa [demoNoPrice, dGetD, dGet?] using h

theorem roundHalfEven_cases (y : ℚ) :
    roundHalfEven y = ⌊y⌋ ∨ roundHalfEven y = ⌊y⌋ + 1 := by
  simp only [roundHalfEven]
  split
  · exact Or.inl rfl
  · split
    · exact Or.inr rfl
    · split
      · exact Or.inl rfl
      · exact Or.inr rfl

theorem round2_nonneg (x : ℚ) (hx : 0 ≤ x) : 0 ≤ round2 x := by
  have h0 : (0 : ℤ) ≤ ⌊x * 100⌋ := Int.floor_nonneg.mpr (by positivity)
  unfold round2
  rcases roundHalfEven_cases (x * 100) with h | h <;> rw [h]
  · have hc : (0 : ℚ) ≤ ((⌊x * 100⌋ : ℤ) : ℚ) := by exact_mod_cast h0
    exact div_nonneg hc (by norm_num)
  · have hc : (0 : ℚ) ≤ ((⌊x * 100⌋ + 1 : ℤ) : ℚ) := by
      exact_mod_cast (by omega : (0 : ℤ) ≤ ⌊x * 100⌋ + 1)
    exact div_nonneg hc (by norm_num)

/-- An order line requesting quantity −1 of the demo product. -/
def demoNegOrder : OrderIn := ⟨"buyer@example.com", [⟨demoPid, -1⟩]⟩

theorem demoNeg_lines_ok : ∀ it ∈ demoNegOrder.items, lineOk demoStore it := by
  intro it hit
  have : it = ⟨demoPid, -1⟩ := by
    simpa [demoNegOrder] using hit
  subst this
  exact ⟨demoProduct, by decide, rfl, by simp [demoProduct],
         ⟨5, rfl, by norm_num⟩, ⟨10, rfl⟩⟩

theorem demoNeg_total :
    (List.map (lineTotal demoStore) demoNegOrder.items).sum = -10 := by
  have hval : isValidOid demoPid = true := by decide
  simp [demoNegOrder, lineTotal, resolvedPrice, resolvedProduct, hval,
        demoStore, demoProduct, findOneById, dGetD, dGet?, toPyFloat]

theorem round2_neg_ten : round2 (-10) = -10 := by
  norm_num [round2, roundHalfEven]

/-- Counterexample to C9 as stated: `create_order` accepts a line with
quantity −1 (the stock check 5 < −1 fails, so the line passes) and both
returns and persists the negative total −10.00; it likewise accepts a line
with quantity 0.  So order creation does accept zero and negative
quantities, and can persist a negative total. -/
theorem c9_counterexample :
    demoNegOrder.items = [⟨demoPid, -1⟩]
    ∧ (create_order demoNegOrder demoStore).2 =
        .ok ⟨genOid 7, -10, "pending"⟩
    ∧ ((-10 : ℚ) < 0)
    ∧ dGet? (orderDocOf demoNegOrder demoStore) "total" =
        some (.vNum (-10))
    ∧ (create_order demoNegOrder demoStore).1.orders =
        [orderDocOf demoNegOrder demoStore]
    ∧ (create_order ⟨"buyer@example.com", [⟨demoPid, 0⟩]⟩ demoStore).2 =
        .ok ⟨genOid 7, 0, "pending"⟩ := by
  have h := create_order_success_eq demoNegOrder demoStore
    (by simp [demoNegOrder]) demoNeg_lines_ok
  refine ⟨rfl, ?_, by norm_num, ?_, ?_, ?_⟩
  · rw [h]
    rw [demoNeg_total, round2_neg_ten]
    rfl
  · show dGet? (orderDocOf demoNegOrder demoStore) "total" = _
    unfold orderDocOf
    rw [demoNeg_total, round2_neg_ten]
    rfl
  · rw [h]
    rfl
  · have hok0 : ∀ it ∈ (OrderIn.mk "buyer@example.com" [⟨demoPid, 0⟩]).items,
        lineOk demoStore it := by
      intro it hit
      have : it = ⟨demoPid, 0⟩ := by simpa using hit
      subst this
      exact ⟨demoProduct, by decide, rfl, by simp [demoProduct],
             ⟨5, rfl, by norm_num⟩, ⟨10, rfl⟩⟩
    have h0 := create_order_success_eq _ demoStore (by simp) hok0
    rw [h0]
    have ht : (List.map (lineTotal demoStore)
        (OrderIn.mk "buyer@example.com" [⟨demoPid, 0⟩]).items).sum = 0 := by
      have hval : isValidOid demoPid = true := by decide
      simp [lineTotal, resolvedPrice, resolvedProduct, hval,
            demoStore, demoProduct, findOneById, dGetD, dGet?, toPyFloat]
    rw [ht]
    have hr : round2 0 = 0 := by norm_num [round2, roundHalfEven]
    rw [hr]
    rfl

/-- **C9 (amended).** For every successfully created Order, each line's
quantity is an integer not exceeding the product's computed stock — but the
code places no positivity constraint on it — and whenever every requested
quantity is non-negative and every product price in the store converts to a
non-negative number, the returned total is non-negative.  (As stated the
claim is false: quantity 0 and negative quantities are accepted, and a
negative quantity can produce a negative persisted total — see the
counterexample.) -/
theorem c9_amended_quantity_and_total (payload : OrderIn) (s s' : Store)
    (r : OrderResp) (h : create_order payload s = (s', .ok r)) :
    (∀ it ∈ payload.items, ∃ d st,
        findOneById s.products it.product_id = some d ∧
        toPyInt (dGetD d "stock" (.vInt 0)) = some st ∧ it.quantity ≤ st)
    ∧ ((∀ it ∈ payload.items, 0 ≤ it.quantity) →
       (∀ d ∈ s.products, ∀ pr,
          toPyFloat (dGetD d "price" (.vInt 0)) = some pr → 0 ≤ pr) →
       0 ≤ r.total) := by
  have h2 : (create_order payload s).2 = .ok r := by rw [h]
  obtain ⟨pr, hpr⟩ := orderLoop_ok_of_create_order_ok payload s r h2
  have hok : ∀ it ∈ payload.items, lineOk s it :=
    all_ok_of_orderLoop_ok s payload.items [] 0 pr hpr
  have hne : payload.items ≠ [] := by
    intro hnil
    have h3 := h2
    unfold create_order at h3
    rw [hnil] at h3
    simp at h3
  constructor
  · intro it hit
    obtain ⟨d, hv, hf, hdne, ⟨st, hst, hle⟩, _⟩ := hok it hit
    exact ⟨d, st, hf, hst, hle⟩
  · intro hq hp
    have heq := create_order_success_eq payload s hne hok
    rw [heq] at h
    have hr : r = ⟨genOid s.nextOid,
        round2 ((payload.items.map (lineTotal s)).sum), "pending"⟩ := by
      have := congrArg Prod.snd h
      simpa using this.symm
    rw [hr]
    refine round2_nonneg _ (List.sum_nonneg ?_)
    intro x hx
    obtain ⟨it, hit, hxit⟩ := List.mem_map.mp hx
    subst hxit
    obtain ⟨d, hv, hf, hdne, _, ⟨prq, hprq⟩⟩ := hok it hit
    have hres : resolvedProduct s it.product_id = some d := by
      simp [resolvedProduct, hv, hf]
    have hdp : d ∈ s.products := by
      unfold findOneById at hf
      exact List.mem_of_find?_eq_some hf
    have hq0 : (0 : ℚ) ≤ (it.quantity : ℚ) := by
      exact_mod_cast hq it hit
    have hp0 : 0 ≤ resolvedPrice s it := by
      unfold resolvedPrice
      simp only [hres, hprq, Option.getD_some]
      exact hp d hdp prq hprq
    unfold lineTotal
    positivity

/-- Witness for the amended C9 at the demo order (quantity 2, stock 5,
price 10): every line's quantity is covered by stock, and the returned
total — 20.00 — is non-negative. -/
theorem c9_witness :
    (∀ it ∈ demoOrder.items, ∃ d st,
        findOneById demoStore.products it.product_id = some d ∧
        toPyInt (dGetD d "stock" (.vInt 0)) = some st ∧ it.quantity ≤ st)
    ∧ (0 : ℚ) ≤ 20 := by
  have happ := c9_amended_quantity_and_total demoOrder demoStore _ _
    (create_order_success_eq demoOrder demoStore (by simp [demoOrder])
      demo_lines_ok)
  refine ⟨happ.1, ?_⟩
  have h2 := happ.2
    (by
      intro it hit
      have hit2 : it = ⟨demoPid, 2⟩ := by simpa [demoOrder] using hit
      subst hit2
      norm_num)
    (by
      intro d hd prq hprq
      have hd2 : d = demoProduct := by simpa [demoStore] using hd
      subst hd2
      have h10 : prq = 10 := Option.some.inj (hprq.symm.trans
        (show toPyFloat (dGetD demoProduct "price" (.vInt 0)) = some 10
         from rfl))
      rw [h10]
      norm_num)
  have h3 : (0 : ℚ) ≤
      round2 ((List.map (lineTotal demoStore) demoOrder.items).sum) := h2
  rw [demo_total, round2_twenty] at h3
  exact h3

/-! ## C6: `$regex` versus the spec's substring match -/

theorem charMatches_of_noMeta (pc c : Char) (h : pc ∉ pcreMeta) :
    charMatches pc c = (pc.toLower == c.toLower) := by
  unfold charMatches
  rw [if_neg]
  intro hdot
  exact h (hdot ▸ (by decide : '.' ∈ pcreMeta))

theorem matchHere_eq_prefEq (p : List Char) (h : ∀ c ∈ p, c ∉ pcreMeta) :
    ∀ s, matchHere p s = prefEq (p.map Char.toLower) (s.map Char.toLower) := by
  induction p with
  | nil => intro s; simp [matchHere, prefEq]
  | cons pc ps ih =>
      intro s
      cases s with
      | nil => simp [matchHere, prefEq]
      | cons c cs =>
          simp only [matchHere, List.map_cons, prefEq]
          rw [charMatches_of_noMeta pc c (h pc (List.mem_cons_self pc ps)),
              ih (fun c hc => h c (List.mem_cons_of_mem pc hc)) cs]

theorem searchFrom_eq_subSearch (p : List Char)
    (h : ∀ c ∈ p, c ∉ pcreMeta) :
    ∀ s, searchFrom p s = subSearch (p.map Char.toLower)
      (s.map Char.toLower) := by
  intro s
  induction s with
  | nil =>
      simp only [searchFrom, subSearch, List.map_nil]
      exact matchHere_eq_prefEq p h []
  | cons c cs ih =>
      simp only [searchFrom, subSearch, List.map_cons]
      rw [matchHere_eq_prefEq p h (c :: cs), ih]
      simp

theorem regexMatchI_eq_specSubstrCI (q t : String) (h : noMeta q = true) :
    regexMatchI q t = specSubstrCI t q := by
  unfold regexMatchI specSubstrCI
  have h2 : ∀ c ∈ q.toList, c ∉ pcreMeta := by
    intro c hc
    have h3 := List.all_eq_true.mp h c hc
    simpa using h3
  exact searchFrom_eq_subSearch q.toList h2 t.toList

theorem docMatches_productQuery_eq (vq qq cq : Option String) (d : Doc)
    (hq : ∀ qs, strTruthy qq = some qs → noMeta qs = true) :
    docMatches (productQuery vq qq cq) d = specProductKeep vq qq cq d := by
  unfold docMatches productQuery specProductKeep
  rw [List.all_append, List.all_append]
  have hA : ∀ (k : String) (o : Option String),
      (match o with
       | some v => [(k, QCond.eqStr v)]
       | none => ([] : List (String × QCond))).all
        (fun kc => condMatch (dGet? d kc.1) kc.2) =
      (match o with
       | some v => match dGet? d k with
                   | some (.vStr t) => t == v
                   | _ => false
       | none => true) := by
    intro k o
    cases o with
    | none => rfl
    | some v =>
        simp only [List.all_cons, List.all_nil, Bool.and_true]
        rfl
  have hQ : (match strTruthy qq with
       | some qs => [("title", QCond.regexI qs)]
       | none => ([] : List (String × QCond))).all
        (fun kc => condMatch (dGet? d kc.1) kc.2) =
      (match strTruthy qq with
       | some qs => match dGet? d "title" with
                    | some (.vStr t) => specSubstrCI t qs
                    | _ => false
       | none => true) := by
    cases hqq : strTruthy qq with
    | none => rfl
    | some qs =>
        simp only [List.all_cons, List.all_nil, Bool.and_true]
        show condMatch (dGet? d "title") (QCond.regexI qs) = _
        cases ht : dGet? d "title" with
        | none => rfl
        | some v =>
            cases v <;>
              simp [condMatch, regexMatchI_eq_specSubstrCI _ _ (hq qs hqq)]
  rw [hA "vendor_id" (strTruthy vq), hA "category" (strTruthy cq), hQ,
      Bool.and_assoc]

/-- A product whose title "ab" will be matched by the regex `.` although
"." is not a substring of "ab". -/
def dotProduct : Doc := [("title", .vStr "ab"), ("_id", .vId demoPid2)]

/-- A one-product store for the C6 counterexample. -/
def dotStore : Store := ⟨[], [dotProduct], [], 0⟩

/-- Counterexample to C6 as stated: with `q = "."` the listing returns the
product titled "ab" even though "." is not a (case-insensitive) substring of
"ab" — the handler passes `q` to the store as a regular expression
(`{"$regex": q, "$options": "i"}`), in which `.` matches any character, so
`q` is not a substring match "for any q string". -/
theorem c6_counterexample :
    list_products none (some ".") none dotStore =
      .ok [[("title", Value.vStr "ab"), ("id", Value.vStr demoPid2)]]
    ∧ specSubstrCI "ab" "." = false := by
  exact ⟨rfl, by decide⟩

/-- **C6 (amended).** Product listing returns exactly the products matching
the logical AND of the provided (non-empty) filters — `vendor_id` and
`category` by exact match, and `q` as a **case-insensitive regular
expression** against `title`, which coincides with the claimed
case-insensitive substring match whenever `q` contains no regex
metacharacter — capped at 100 results and normalized. -/
theorem c6_amended_product_listing (vq qq cq : Option String) (s : Store)
    (hq : ∀ qs, strTruthy qq = some qs → noMeta qs = true) :
    list_products vq qq cq s =
      match normalizeAll
          ((s.products.filter (specProductKeep vq qq cq)).take 100) with
      | some l => .ok l
      | none => .error err500 := by
  show (match normalizeAll
      ((s.products.filter (docMatches (productQuery vq qq cq))).take 100) with
    | some l => Except.ok l
    | none => Except.error err500) = _
  rw [List.filter_congr
        (fun d _ => docMatches_productQuery_eq vq qq cq d hq)]

/-- Store with three products exercising the case-insensitive match. -/
def shirtStore : Store :=
  ⟨[], [[("title", .vStr "Blue Shirt"), ("_id", .vId demoPid)],
        [("title", .vStr "SHIRTING"), ("_id", .vId demoPid2)],
        [("title", .vStr "Pants"), ("_id", .vId demoPid3)]], [], 0⟩

/-- Witness for the amended C6: `q = "shirt"` (no metacharacters) keeps
exactly the titles containing "shirt" case-insensitively — "Blue Shirt" and
"SHIRTING" — and excludes "Pants". -/
theorem c6_witness :
    list_products none (some "shirt") none shirtStore =
      .ok [[("title", Value.vStr "Blue Shirt"), ("id", Value.vStr demoPid)],
           [("title", Value.vStr "SHIRTING"), ("id", Value.vStr demoPid2)]]
    ∧ specSubstrCI "Blue Shirt" "shirt" = true
    ∧ specSubstrCI "SHIRTING" "shirt" = true
    ∧ specSubstrCI "Pants" "shirt" = false := by
  refine ⟨?_, by decide, by decide, by decide⟩
  rw [c6_amended_product_listing none (some "shirt") none shirtStore
      (by intro qs hqs; cases hqs; decide)]
  rfl

/-! ## C7: ordering of `list_orders` -/

/-- All keys missing: the descending `created_at` sort is the identity
(every sort key is the minimum, and the sort is stable). -/
theorem sortCreatedDesc_id_of_no_created (l : List Doc)
    (h : ∀ d ∈ l, dGet? d "created_at" = none) : sortCreatedDesc l = l := by
  induction l with
  | nil => rfl
  | cons d ds ih =>
      have hd : dGet? d "created_at" = none :=
        h d (List.mem_cons_self d ds)
      have hds := ih (fun d0 hd0 => h d0 (List.mem_cons_of_mem d hd0))
      unfold sortCreatedDesc
      rw [hds]
      cases ds with
      | nil => rfl
      | cons e es =>
          have he : dGet? e "created_at" = none :=
            h e (List.mem_cons_of_mem d (List.mem_cons_self e es))
          unfold insertDesc
          rw [if_neg]
          unfold keyGT createdKey
          rw [hd, he]
          simp

/-- **C7 (code evaluated at the failing input).** Two orders created in
sequence carry no `created_at` field at all — `create_order` never writes
one — so `list_orders`, which sorts descending on that very field, returns
them oldest-first (insertion order): the first-created order (id
`genOid 7`) comes back before the second (id `genOid 8`), contradicting the
claimed newest-first ordering.  The exact `buyer_email` filter and the cap
are real, but no creation-time ordering exists to sort by. -/
theorem c7_created_at_never_set :
    ((create_order demoOrder
        (create_order demoOrder demoStore).1).1.orders.map
      (fun d => dGet? d "created_at")) = [none, none]
    ∧ (list_orders (some "buyer@example.com")
          (create_order demoOrder
            (create_order demoOrder demoStore).1).1).map
        (fun l => l.map (fun d => dGet? d "id")) =
      .ok [some (.vStr (genOid 7)), some (.vStr (genOid 8))] := by
  exact ⟨rfl, rfl⟩

end ECom
